import Mathlib

/-!
Verification of the AutoRepo-Worker webhook gateway (worker.js, version
"0.0.2 aequalis").  JavaScript strings are embedded as lists of characters,
and every JavaScript string operation used by the worker is given a
structurally recursive Lean counterpart so that all definitions evaluate by
kernel reduction.  Fallible JavaScript code (code that can throw) is embedded
in the `Except` monad, where `.error` marks a thrown exception or, for
pipeline stages, the message of an error `Response`.
-/

namespace AutoRepoWorker

/-- Embedding of a JavaScript string: its list of UTF-16-ish code points. -/
abbrev JSString := List Char

/-- Coerce a Lean string literal to the `JSString` embedding. -/
def jstr (s : String) : JSString := s.data

/-- JavaScript `s.toLowerCase()` (ASCII range, which is all the worker uses). -/
def jsToLower (s : JSString) : JSString := s.map Char.toLower

/-- JavaScript `s.split(sep)` for a single-character separator `sep`.
`"".split(sep)` is `[""]`, and empty segments are kept, as in JavaScript. -/
def splitChar (sep : Char) : JSString → List JSString
  | [] => [[]]
  | c :: cs =>
    let r := splitChar sep cs
    if c = sep then [] :: r
    else
      match r with
      | [] => [[c]]
      | h :: t => (c :: h) :: t

/-- JavaScript `s.trim()`: strip leading and trailing whitespace. -/
def jsTrim (s : JSString) : JSString :=
  ((s.dropWhile Char.isWhitespace).reverse.dropWhile Char.isWhitespace).reverse

/-- JavaScript `s.replace(/(\r\n|\n|\r)/gm, "")`: delete every CR and LF. -/
def stripNewlines (s : JSString) : JSString :=
  s.filter (fun c => !(c = '\n' ∨ c = '\r'))

/-- JavaScript replace of the regex matching one leading or one trailing
slash with the empty string (worker.js line 105): remove one leading and one
trailing slash, if present. -/
def stripSlashes (s : JSString) : JSString :=
  let s := match s with
    | '/' :: rest => rest
    | other => other
  if s.getLast? = some '/' then s.dropLast else s

/-- JavaScript `s.substring(s.lastIndexOf('/') + 1)`: the final
slash-delimited segment (the whole string when it has no slash). -/
def jsLastSlashSegment (s : JSString) : JSString :=
  ((s.reverse.takeWhile (fun c => c ≠ '/')).reverse)

/-- JavaScript split on a double-underscore separator, index 0: the prefix
before the first double-underscore (the whole string when there is none). -/
def beforeDoubleUnderscore : JSString → JSString
  | [] => []
  | [x] => [x]
  | x :: y :: rest =>
    if x = '_' ∧ y = '_' then []
    else x :: beforeDoubleUnderscore (y :: rest)

/-- JavaScript `s.charAt(0) + s.slice(1).toLowerCase()`, the name
normalization used by `get_allowed_keys` and `parse_trigger`.  Note that the
first character is kept as-is, not upper-cased. -/
def jsCapFirst : JSString → JSString
  | [] => []
  | c :: cs => c :: jsToLower cs

/-- String literals compared against throughout the worker. -/
def litTrigger : JSString := jstr "trigger"

def litAllowedReposUpper : JSString := jstr "ALLOWED_REPOS"

def litAllowedReposForUsersUpper : JSString := jstr "ALLOWED_REPOS_FOR_USERS"

def litAllowedRepos : JSString := jstr "allowed_repos"

def litAllowedReposForUsers : JSString := jstr "allowed_repos_for_users"

def litMain : JSString := jstr "main"

def litTest : JSString := jstr "test"

def litTargetName : JSString := jstr "target_name"

def litDash : JSString := jstr "-"

def litStar : JSString := jstr "*"

/-- The worker version constant (worker.js line 22). -/
def version : JSString := jstr "0.0.2 aequalis"

/-- Error messages.  Each names the error `Response` built at the
corresponding place in worker.js (the surrounding JSON-ish wrapper of the
response body is elided; only which response is produced matters). -/
def errNonPermissibleKey : String := "Non-Permissible Key"

def errNoPermissibleRepositories : String := "No Permissible Repositories"

def errNonPermissibleRepository : String := "Non-Permissible Repository"

def errNonPermissibleRepositoryForKey : String := "Non-Permissible Repository for Key"

def errNonPermissibleTrigger : String := "Non-Permissible Trigger"

def errUnexpectedRequestBody : String := "Unexpected Request Body"

def errNoBranchProvided : String := "No Branch Provided"

/-- A thrown JavaScript `TypeError` (reading a property of `undefined`). -/
def errTypeError : String := "TypeError"

/-- A thrown WebCrypto `DataError` (HMAC `importKey` rejects an empty key). -/
def errDataError : String := "DataError"

/-- Embedding of `get_url_parts` (worker.js lines 103-120): strip one
leading/trailing slash, lower-case, split on `/`, and return the non-blank
segments after the first `trigger` segment (empty if `trigger` is absent or
last). -/
def get_url_parts (inputString : JSString) : List JSString :=
  let cleanedString := stripSlashes inputString
  let cleanedString := jsToLower cleanedString
  let parts := splitChar '/' cleanedString
  match parts.findIdx? (fun p => p == litTrigger) with
  | some triggerIndex =>
    if triggerIndex < parts.length - 1 then
      (parts.drop (triggerIndex + 1)).filter (fun part => jsTrim part ≠ [])
    else []
  | none => []

/-- A credential set as produced by `get_allowed_keys`: the list of
(normalized name, value) pairs in the store-response insertion order (the
iteration order of a JavaScript object with non-numeric string keys). -/
abbrev Keys := List (JSString × JSString)

/-- Embedding of the name-normalization loop of `get_allowed_keys`
(worker.js lines 147-154): each variable is inserted under
`name.charAt(0) + name.slice(1).toLowerCase()`; a repeated normalized name
overwrites the earlier value in place. -/
def parse_keys (storeVars : List (JSString × JSString)) : Keys :=
  storeVars.foldl
    (fun keys nv =>
      let name := jsCapFirst nv.1
      if keys.any (fun kv => kv.1 == name) then
        keys.map (fun kv => if kv.1 == name then (name, nv.2) else kv)
      else keys ++ [(name, nv.2)])
    []

/-- Embedding of `verify_key` (worker.js lines 174-197).  The HMAC check
`verifySignature(key, header, payload)` for the fixed inbound header and
payload is abstracted as the predicate `verify` on the candidate secret.
Note that the source compares the loop variable `key` AFTER the reassignment
`key = keys[key]`, so the meta-entry skip tests the VALUE of the entry, not
its name. -/
def verify_key (verify : JSString → Bool) : Keys → Except String JSString
  | [] => .error errNonPermissibleKey
  | (name, value) :: rest =>
    if value = litAllowedReposUpper ∨ value = litAllowedReposForUsersUpper then
      verify_key verify rest
    else if verify value then .ok (jsToLower name)
    else verify_key verify rest

/-- Embedding of `get_allowed_repos` (worker.js lines 207-222): the value of
the last variable whose lower-cased name is `allowed_repos`, lower-cased,
split on commas, each entry stripped of line breaks and trimmed.  Empty list
when no such variable exists. -/
def get_allowed_repos (keys : Keys) : List JSString :=
  keys.foldl
    (fun allowed_repos kv =>
      let name := jsToLower kv.1
      let repos := jsToLower kv.2
      if name = litAllowedRepos then
        (splitChar ',' repos).map (fun part => jsTrim (stripNewlines part))
      else allowed_repos)
    []

/-- A JavaScript value that is either a `Response` object or a boolean, as
returned by `repo_allowed`. -/
inductive BoolOrResponse
  | response (msg : String)
  | bool (b : Bool)
deriving DecidableEq

/-- JavaScript truthiness of a `BoolOrResponse`: any object (a `Response`)
is truthy; a boolean is itself. -/
def truthy : BoolOrResponse → Bool
  | .response _ => true
  | .bool b => b

/-- Embedding of `repo_allowed` (worker.js lines 232-249): an error
`Response` when the parsed allow-list is empty, otherwise whether every URL
part appears in the allow-list. -/
def repo_allowed (url_parts : List JSString) (keys : Keys) : BoolOrResponse :=
  let allowed_repos := get_allowed_repos keys
  if allowed_repos.length = 0 then .response errNoPermissibleRepositories
  else .bool (url_parts.all (fun part => allowed_repos.contains part))

/-- Interpretation of a trimmed per-user allowance value (worker.js lines
285-294): `-` is the empty list, `*` is the full global allow-list, anything
else is split on commas with entries trimmed. -/
def interpret_user_allowances (allowed_repos : List JSString)
    (user_allowances : JSString) : List JSString :=
  if user_allowances = litDash then []
  else if user_allowances = litStar then allowed_repos
  else (splitChar ',' user_allowances).map jsTrim

/-- Embedding of the inner line loop of `repo_allowed_for_key` (worker.js
lines 272-297).  Each line is lower-cased and split on `:`; a line whose
cleaned owner equals `used_base` overwrites the accumulator with its
interpreted value.  A matching line with no `:` makes the source evaluate
`undefined.trim()`, a thrown `TypeError`. -/
def scan_user_lines (used_base : JSString) (allowed_repos : List JSString) :
    List JSString → List JSString → Except String (List JSString)
  | [], acc => .ok acc
  | line :: rest, acc =>
    let value := jsToLower line
    let user_parts := splitChar ':' value
    let user_name := jsTrim (stripNewlines (user_parts.headD []))
    if user_name ≠ used_base then
      scan_user_lines used_base allowed_repos rest acc
    else
      match user_parts[1]? with
      | none => .error errTypeError
      | some second =>
        let user_allowances := jsTrim second
        scan_user_lines used_base allowed_repos rest
          (interpret_user_allowances allowed_repos user_allowances)

/-- Embedding of the outer variable loop of `repo_allowed_for_key`
(worker.js lines 264-299): every variable whose lower-cased name is
`allowed_repos_for_users` has its value split into lines which are scanned
in order, all updating the one `allowed_repos_for_key` accumulator. -/
def scan_keys_for_users (used_base : JSString) (allowed_repos : List JSString) :
    Keys → List JSString → Except String (List JSString)
  | [], acc => .ok acc
  | kv :: rest, acc =>
    if jsToLower kv.1 = litAllowedReposForUsers then
      match scan_user_lines used_base allowed_repos (splitChar '\n' kv.2) acc with
      | .error e => .error e
      | .ok acc => scan_keys_for_users used_base allowed_repos rest acc
    else scan_keys_for_users used_base allowed_repos rest acc

/-- Embedding of `repo_allowed_for_key` (worker.js lines 258-309). -/
def repo_allowed_for_key (url_parts : List JSString) (used_key : JSString)
    (keys : Keys) : Except String Bool :=
  let used_key := jsToLower used_key
  let allowed_repos := get_allowed_repos keys
  match scan_keys_for_users (beforeDoubleUnderscore used_key) allowed_repos keys [] with
  | .error e => .error e
  | .ok allowed_repos_for_key =>
    .ok (url_parts.all (fun part => allowed_repos_for_key.contains part))

/-- The `repository` object of a webhook payload (the fields the worker
reads; `isPrivate` embeds the JavaScript field `private`). -/
structure Repository where
  name : JSString
  full_name : JSString
  isPrivate : Bool
  owner_login : JSString
  html_url : JSString
deriving DecidableEq

/-- A parsed webhook payload: an optional `repository` object and an
optional `ref` string. -/
structure Payload where
  repository : Option Repository
  ref : Option JSString
deriving DecidableEq

/-- The trigger record built by `parse_trigger` (worker.js lines 361-375). -/
structure Trigger where
  worker_version : JSString
  key_owner : JSString
  target_repo : JSString
  target_name : JSString
  branch_main : Option JSString
  branch_test : Option JSString
  code_repo : JSString
  code_private : Bool
  code_owner : JSString
  code_url : JSString
  code_branch : JSString
deriving DecidableEq

/-- The `getParams` object built from `url.searchParams` (worker.js lines
332-334): an association list in iteration order; a repeated key keeps the
last assignment, so lookup takes the last matching pair. -/
abbrev GetParams := List (JSString × JSString)

/-- JavaScript `getParams[k]` as an `Option`: the value of the last pair
with key `k`. -/
def paramGet (getParams : GetParams) (k : JSString) : Option JSString :=
  (getParams.reverse.find? (fun p => p.1 == k)).map (fun p => p.2)

/-- JavaScript `k in getParams`. -/
def paramHas (getParams : GetParams) (k : JSString) : Bool :=
  (paramGet getParams k).isSome

/-- Worker.js line 343: `!("test" in getParams) && !("main" in getParams)`. -/
def main_and_test_not_set (getParams : GetParams) : Bool :=
  !(paramHas getParams litTest) && !(paramHas getParams litMain)

/-- Worker.js lines 344-355 (no-`ref` else-branch): `branch` starts `""`,
is assigned the `test` parameter if present, then the `main` parameter if
present (so `main` wins when both are present). -/
def branch_from_params (getParams : GetParams) : JSString :=
  let branch : JSString := []
  let branch := match paramGet getParams litTest with
    | some v => v
    | none => branch
  let branch := match paramGet getParams litMain with
    | some v => v
    | none => branch
  branch

/-- Worker.js lines 342-358: branch resolution.  With a `ref` in the
payload the branch is its final slash-segment; otherwise the request fails
with `No Branch Provided` unless `main` or `test` is supplied. -/
def resolve_branch (getParams : GetParams) (payload : Payload) :
    Except String JSString :=
  match payload.ref with
  | none =>
    if main_and_test_not_set getParams then .error errNoBranchProvided
    else .ok (branch_from_params getParams)
  | some ref => .ok (jsLastSlashSegment ref)

/-- Worker.js lines 361-375: the base trigger record. -/
def base_trigger (used_key : JSString) (destination : List JSString)
    (getParams : GetParams) (repository : Repository) (branch : JSString) :
    Trigger where
  worker_version := version
  key_owner := jsCapFirst used_key
  target_repo := List.intercalate (jstr ",") destination
  target_name := (paramGet getParams litTargetName).getD repository.name
  branch_main := none
  branch_test := none
  code_repo := repository.full_name
  code_private := repository.isPrivate
  code_owner := repository.owner_login
  code_url := repository.html_url
  code_branch := branch

/-- Worker.js lines 379-388: copy the `main` and `test` parameters into the
record, then fall back to `branch_main := code_branch` when neither was
supplied. -/
def apply_branch_fields (getParams : GetParams) (trigger : Trigger) : Trigger :=
  let trigger := match paramGet getParams litMain with
    | some v => { trigger with branch_main := some v }
    | none => trigger
  let trigger := match paramGet getParams litTest with
    | some v => { trigger with branch_test := some v }
    | none => trigger
  if main_and_test_not_set getParams then
    { trigger with branch_main := some trigger.code_branch }
  else trigger

/-- Worker.js lines 389-394: append `" (<branch>)"` to `target_name` when
`branch_main !== code_branch` (the source tests this same comparison twice,
never testing `branch_test`) or when neither `main` nor `test` was
supplied. -/
def apply_name_disambiguation (getParams : GetParams) (trigger : Trigger) :
    Trigger :=
  let branch_not_main_or_test :=
    (trigger.branch_main != some trigger.code_branch)
      && (trigger.branch_main != some trigger.code_branch)
  if branch_not_main_or_test || main_and_test_not_set getParams then
    { trigger with
        target_name :=
          trigger.target_name ++ jstr " (" ++ trigger.code_branch ++ jstr ")" }
  else trigger

/-- Embedding of `parse_trigger` (worker.js lines 323-397). -/
def parse_trigger (used_key : JSString) (pathname : JSString)
    (getParams : GetParams) (payload : Payload) : Except String Trigger :=
  let destination := get_url_parts pathname
  if destination.length < 1 then .error errNonPermissibleTrigger
  else
    match payload.repository with
    | none => .error errUnexpectedRequestBody
    | some repository =>
      match resolve_branch getParams payload with
      | .error e => .error e
      | .ok branch =>
        .ok (apply_name_disambiguation getParams
          (apply_branch_fields getParams
            (base_trigger used_key destination getParams repository branch)))

/-- The observable outcome of the post-authentication pipeline: either an
error `Response` or a finished trigger record (handed to the notifier). -/
inductive PipelineResult
  | response (msg : String)
  | trigger (t : Trigger)
deriving DecidableEq

/-- Embedding of the repository-authorization tail of `handleRequest`
(worker.js lines 482-504), entered with the fetched credential set and the
identity returned by `verify_key`.  Note line 486 tests
`!repo_allowed(url_parts, keys)`: when `repo_allowed` returns its error
`Response` (empty allow-list), that object is truthy, so the branch is NOT
taken and the pipeline keeps going. -/
def handle_request_auth_stage (keys : Keys) (used_key : JSString)
    (pathname : JSString) (getParams : GetParams) (payload : Payload) :
    Except String PipelineResult :=
  let url_parts := get_url_parts pathname
  if !(truthy (repo_allowed url_parts keys)) then
    .ok (.response errNonPermissibleRepository)
  else
    match repo_allowed_for_key url_parts used_key keys with
    | .error e => .error e
    | .ok allowed =>
      if !allowed then .ok (.response errNonPermissibleRepositoryForKey)
      else
        match parse_trigger used_key pathname getParams payload with
        | .error e => .ok (.response e)
        | .ok t => .ok (.trigger t)

/-- Value of a hexadecimal digit, as recognized by JavaScript
`parseInt(c, 16)`. -/
def hexDigitVal? (c : Char) : Option Nat :=
  if '0' ≤ c ∧ c ≤ '9' then some (c.toNat - 48)
  else if 'a' ≤ c ∧ c ≤ 'f' then some (c.toNat - 97 + 10)
  else if 'A' ≤ c ∧ c ≤ 'F' then some (c.toNat - 65 + 10)
  else none

/-- Longest leading run of hexadecimal digits; `none` embeds the `NaN`
result of `parseInt` when no digit is found. -/
def hexRun : List Char → Nat → Bool → Option Nat
  | [], acc, seen => if seen then some acc else none
  | c :: cs, acc, seen =>
    match hexDigitVal? c with
    | some d => hexRun cs (acc * 16 + d) true
    | none => if seen then some acc else none

/-- Hexadecimal digit run after an optional case-insensitive 0x prefix,
which `parseInt` strips when the radix is 16. -/
def hexParse : List Char → Option Nat
  | '0' :: 'x' :: rest => hexRun rest 0 false
  | '0' :: 'X' :: rest => hexRun rest 0 false
  | other => hexRun other 0 false

/-- JavaScript `parseInt(s, 16)`: strip leading whitespace, read an optional
sign, then the longest hexadecimal digit run; `none` embeds `NaN`. -/
def jsParseInt16 (s : JSString) : Option Int :=
  let s := s.dropWhile Char.isWhitespace
  match s with
  | '-' :: rest => (hexParse rest).map (fun n => -(n : Int))
  | '+' :: rest => (hexParse rest).map (fun n => (n : Int))
  | other => (hexParse other).map (fun n => (n : Int))

/-- The ToUint8 coercion a `Uint8Array` element assignment applies:
`NaN` becomes 0, other values are taken modulo 256. -/
def toUint8 : Option Int → Nat
  | none => 0
  | some i => ((i % 256 + 256) % 256).toNat

/-- Split a list into two-character slices, as the loop of `hexToBytes`
does with `hex.slice(i, i + 2)` for even `i`; a final odd slice has one
character. -/
def chunk2 : List Char → List (List Char)
  | [] => []
  | [c] => [[c]]
  | a :: b :: rest => [a, b] :: chunk2 rest

/-- Embedding of `hexToBytes` (worker.js lines 80-92) applied to an actual
string.  `new Uint8Array(hex.length / 2)` truncates a fractional length (the
ECMAScript ToIndex conversion), and the final out-of-bounds element write of
the odd-length case is silently ignored, which the `take` reproduces;
`parseInt` results pass through ToUint8, so undecodable slices store 0. -/
def hexToBytes (hex : JSString) : List Nat :=
  let len := hex.length / 2
  ((chunk2 hex).map (fun c => toUint8 (jsParseInt16 c))).take len

/-- Embedding of `verifySignature` (worker.js lines 47-72).  The HMAC-SHA256
computation of `crypto.subtle.verify` is abstracted as `hmacVerify` applied
to the secret, the payload and the decoded signature bytes (for a wrong-length
signature it returns false rather than throwing).  Two paths throw, embedded
as `.error`: `importKey` rejects an empty raw HMAC key with a `DataError`,
and when the header contains no `=` the expression `parts[1]` is `undefined`,
so `hexToBytes` evaluates `undefined.length` and throws a `TypeError`.
Neither is caught anywhere in the worker. -/
def verifySignature (hmacVerify : JSString → JSString → List Nat → Bool)
    (secret header payload : JSString) : Except String Bool :=
  let parts := splitChar '=' header
  let sigHex := parts[1]?
  if secret.length = 0 then .error errDataError
  else
    match sigHex with
    | none => .error errTypeError
    | some h => .ok (hmacVerify secret payload (hexToBytes h))

/-- The lower-cased base owner of an identity: the part before a
double-underscore, as `repo_allowed_for_key` computes it. -/
def base_owner (identity : JSString) : JSString :=
  beforeDoubleUnderscore (jsToLower identity)

/-- The cleaned owner field of one `ALLOWED_REPOS_FOR_USERS` line: the part
before the first colon of the lower-cased line, with line breaks removed and
trimmed. -/
def line_owner (line : JSString) : JSString :=
  jsTrim (stripNewlines ((splitChar ':' (jsToLower line)).headD []))

/-- All `ALLOWED_REPOS_FOR_USERS` lines of a credential set, in the order
`repo_allowed_for_key` scans them. -/
def user_lines (keys : Keys) : List JSString :=
  (keys.filter (fun kv => jsToLower kv.1 == litAllowedReposForUsers)).flatMap
    (fun kv => splitChar '\n' kv.2)

/-- Specification-side resolved per-user set with an explicit default for
the no-match case: the value of the LAST line whose owner matches, with
dash/star/explicit-list semantics applied to the trimmed value of the
lower-cased line. -/
def resolve_user_lines_from (base : JSString) (globalAllow : List JSString)
    (lines : List JSString) (acc : List JSString) : List JSString :=
  match (lines.filter (fun l => line_owner l == base)).getLast? with
  | none => acc
  | some l =>
    interpret_user_allowances globalAllow
      (jsTrim (((splitChar ':' (jsToLower l))[1]?).getD []))

/-- Specification-side resolved per-user set: last matching line wins, no
matching line resolves to the empty set. -/
def resolve_user_lines (base : JSString) (globalAllow : List JSString)
    (lines : List JSString) : List JSString :=
  resolve_user_lines_from base globalAllow lines []

/-- Claim-literal resolved per-user set, following the exact words of the
specification for C4: the owner comparison is trimmed and lower-cased, but
the value entries of an explicit list are only trimmed — NOT lower-cased. -/
def claim_resolved_set (base : JSString) (globalAllow : List JSString)
    (lines : List JSString) : List JSString :=
  match (lines.filter (fun l => line_owner l == base)).getLast? with
  | none => []
  | some l =>
    let v := jsTrim (((splitChar ':' l)[1]?).getD [])
    if v = litDash then []
    else if v = litStar then globalAllow
    else (splitChar ',' v).map jsTrim

/-- Well-formedness of the per-user blob relative to an identity: every
scanned line whose owner matches the base owner of the identity has a colon
(so the source never evaluates `undefined.trim()`). -/
def user_lines_wf (keys : Keys) (identity : JSString) : Prop :=
  ∀ l ∈ user_lines keys, line_owner l = base_owner identity →
    ((splitChar ':' (jsToLower l))[1]?).isSome = true

instance (keys : Keys) (identity : JSString) :
    Decidable (user_lines_wf keys identity) := by
  unfold user_lines_wf
  exact List.decidableBAll _ _

/-- Default target name of a trigger: the `target_name` query parameter if
present, else the repository name from the payload (worker.js lines
365-367). -/
def base_target_name (getParams : GetParams) (repository : Repository) :
    JSString :=
  (paramGet getParams litTargetName).getD repository.name

/-- The `branch_main` field as populated by worker.js lines 379-388, given
the resolved branch: the `main` parameter when `main` or `test` was
supplied, else the resolved branch itself. -/
def resolved_branch_main (getParams : GetParams) (code_branch : JSString) :
    Option JSString :=
  if main_and_test_not_set getParams then some code_branch
  else paramGet getParams litMain

/-- A concrete repository object used by the example inputs. -/
def exRepository : Repository where
  name := jstr "AutoRepo"
  full_name := jstr "zbee/AutoRepo"
  isPrivate := false
  owner_login := jstr "zbee"
  html_url := jstr "https://x"

/-- A concrete payload with a repository and a ref on the main branch. -/
def exPayloadMain : Payload where
  repository := some exRepository
  ref := some (jstr "refs/heads/main")

/-- A concrete payload with a repository and a ref on a dev branch. -/
def exPayloadDev : Payload where
  repository := some exRepository
  ref := some (jstr "refs/heads/dev")

/-- A concrete payload with a repository and no ref. -/
def exPayloadNoRef : Payload where
  repository := some exRepository
  ref := none

/-- A credential set with NO `ALLOWED_REPOS` variable (empty global
allow-list) but a per-user rule granting zbee the explicit label jsp. -/
def emptyGlobalKeys : Keys :=
  [(jstr "Allowed_repos_for_users", jstr "zbee: jsp")]

/-- The trigger record the pipeline builds from `emptyGlobalKeys` for
identity zbee, path target jsp, query parameter main set to main, and
`exPayloadMain`. -/
def emptyGlobalTrigger : Trigger where
  worker_version := version
  key_owner := jstr "zbee"
  target_repo := jstr "jsp"
  target_name := jstr "AutoRepo"
  branch_main := some (jstr "main")
  branch_test := none
  code_repo := jstr "zbee/AutoRepo"
  code_private := false
  code_owner := jstr "zbee"
  code_url := jstr "https://x"
  code_branch := jstr "main"

/-- A credential set whose per-user blob has a line with no colon whose
whole text equals the owner zbee. -/
def colonlessKeys : Keys :=
  [(jstr "Allowed_repos", jstr "jsp"),
   (jstr "Allowed_repos_for_users", jstr "zbee")]

/-- A credential set whose per-user value entry JSP is upper-case while the
global allow-list holds the lower-case jsp. -/
def upperValueKeys : Keys :=
  [(jstr "Allowed_repos", jstr "jsp"),
   (jstr "Allowed_repos_for_users", jstr "zbee: JSP")]

/-- Credential set for the authorization example: global allow-list jsp and
zbee, and a per-user line granting alice only jsp. -/
def aliceKeys : Keys :=
  [(jstr "Allowed_repos", jstr "jsp,zbee"),
   (jstr "Allowed_repos_for_users", jstr "alice: jsp")]

end AutoRepoWorker

deriving instance DecidableEq for Except

namespace AutoRepoWorker

/-- Claim C1, evidence of the code bug: the store returns the single
variable ALLOWED_REPOS; `get_allowed_keys` normalizes its name to
Allowed_repos, and `verify_key` — whose skip condition tests the entry
VALUE, not its name — feeds the configuration blob to the signature
verifier.  A request signed with the blob as HMAC secret authenticates and
obtains the identity allowed_repos, which the claim says can never
happen. -/
theorem meta_entry_value_authenticates :
    parse_keys [(jstr "ALLOWED_REPOS", jstr "jsp,zbee")] =
      [(jstr "Allowed_repos", jstr "jsp,zbee")] ∧
    verify_key (fun s => s == jstr "jsp,zbee")
      [(jstr "Allowed_repos", jstr "jsp,zbee")] = .ok (jstr "allowed_repos") := by
  decide

/-- Claim C5, evidence of the code bug: in a credential set where the only
verifying value is the ALLOWED_REPOS blob itself (the genuine credential
sek does not verify), the resolver does not fail with Non-Permissible Key
as the claim requires — it returns the identity allowed_repos. -/
theorem meta_entry_preempts_non_permissible_key :
    ((jstr "sek") == jstr "blob") = false ∧
    verify_key (fun s => s == jstr "blob")
      [(jstr "Allowed_repos", jstr "blob"), (jstr "Zbee", jstr "sek")] =
      .ok (jstr "allowed_repos") := by
  decide

/-- Claim C2, evidence of the code bug: with no ALLOWED_REPOS variable the
parsed global allow-list is empty, `repo_allowed` returns its error
Response — but worker.js line 486 tests `!repo_allowed(...)` and a Response
object is truthy, so the pipeline continues, the per-user explicit list
admits the target, and a full trigger record is built instead of the
No Permissible Repositories failure. -/
theorem empty_global_allow_list_builds_trigger :
    get_allowed_repos emptyGlobalKeys = [] ∧
    handle_request_auth_stage emptyGlobalKeys (jstr "zbee") (jstr "/trigger/jsp")
      [(jstr "main", jstr "main")] exPayloadMain = .ok (.trigger emptyGlobalTrigger) := by
  decide

/-- Claim C10 counterexample: a credential set with a non-empty global
allow-list whose per-user blob is the single colonless line zbee.  With an
empty target list the per-identity check does not return true: scanning the
blob for identity zbee reaches `user_parts[1].trim()` with `user_parts[1]`
undefined and throws a TypeError, so the pipeline ends in a thrown
exception, not in the Non-Permissible Trigger response. -/
theorem colonless_line_throws :
    get_allowed_repos colonlessKeys ≠ [] ∧
    get_url_parts (jstr "/trigger/") = [] ∧
    repo_allowed_for_key [] (jstr "zbee") colonlessKeys = .error errTypeError ∧
    handle_request_auth_stage colonlessKeys (jstr "zbee") (jstr "/trigger/") []
      exPayloadMain = .error errTypeError := by
  decide

/-- Claim C4 counterexample: the per-user line grants zbee the entry JSP
(upper case).  The claim resolves the set by trimming only, giving the set
holding JSP, which does not contain the target jsp — so the claim predicts
rejection.  The code lower-cases the whole line before splitting, resolves
the set holding jsp, and allows the target. -/
theorem upper_case_entry_divergence :
    repo_allowed_for_key [jstr "jsp"] (jstr "zbee") upperValueKeys = .ok true ∧
    claim_resolved_set (base_owner (jstr "zbee")) (get_allowed_repos upperValueKeys)
      (user_lines upperValueKeys) = [jstr "JSP"] ∧
    (jstr "jsp") ∉ claim_resolved_set (base_owner (jstr "zbee"))
      (get_allowed_repos upperValueKeys) (user_lines upperValueKeys) := by
  decide

/-- Claim C8 counterexample: a header with no equals sign.  `split` yields a
single part, `parts[1]` is undefined, and `hexToBytes` throws a TypeError
on `undefined.length` — `verifySignature` does not return false, it
throws. -/
theorem header_without_equals_throws :
    verifySignature (fun _ _ _ => false) (jstr "sek") (jstr "abc") (jstr "x") =
      .error errTypeError := by
  decide

end AutoRepoWorker

namespace AutoRepoWorker

theorem resolve_branch_error_eq (gp : GetParams) (payload : Payload) (e : String)
    (h : resolve_branch gp payload = .error e) : e = errNoBranchProvided := by
  unfold resolve_branch at h
  cases hr : payload.ref with
  | none =>
    rw [hr] at h
    by_cases hm : main_and_test_not_set gp = true
    · rw [if_pos hm] at h
      exact (Except.error.inj h).symm
    · rw [if_neg hm] at h
      cases h
  | some r =>
    rw [hr] at h
    cases h

theorem resolve_branch_error_iff (gp : GetParams) (payload : Payload) :
    resolve_branch gp payload = .error errNoBranchProvided ↔
      payload.ref = none ∧ paramGet gp litMain = none ∧ paramGet gp litTest = none := by
  unfold resolve_branch
  cases hr : payload.ref <;> cases hm : paramGet gp litMain <;>
    cases ht : paramGet gp litTest <;>
      simp [main_and_test_not_set, paramHas, hm, ht, hr]

theorem branch_from_params_main (gp : GetParams) (vm : JSString)
    (hm : paramGet gp litMain = some vm) : branch_from_params gp = vm := by
  unfold branch_from_params
  cases ht : paramGet gp litTest <;> simp [hm, ht]

theorem branch_from_params_test (gp : GetParams) (vt : JSString)
    (hm : paramGet gp litMain = none) (ht : paramGet gp litTest = some vt) :
    branch_from_params gp = vt := by
  unfold branch_from_params
  simp [hm, ht]

theorem parse_trigger_ok_shape (u pathname : JSString) (gp : GetParams)
    (payload : Payload) (repo : Repository)
    (h1 : 1 ≤ (get_url_parts pathname).length)
    (h2 : payload.repository = some repo) :
    parse_trigger u pathname gp payload =
      match resolve_branch gp payload with
      | .error e => .error e
      | .ok branch =>
        .ok (apply_name_disambiguation gp (apply_branch_fields gp
          (base_trigger u (get_url_parts pathname) gp repo branch))) := by
  unfold parse_trigger
  rw [h2, if_neg (by omega)]

theorem apply_branch_fields_eq (gp : GetParams) (t : Trigger)
    (hbm : t.branch_main = none) (hbt : t.branch_test = none) :
    apply_branch_fields gp t =
      { t with branch_main := resolved_branch_main gp t.code_branch,
               branch_test := paramGet gp litTest } := by
  unfold apply_branch_fields
  cases hm : paramGet gp litMain <;> cases ht : paramGet gp litTest <;>
    simp [resolved_branch_main, main_and_test_not_set, paramHas, hm, ht, hbm, hbt]

theorem apply_name_disambiguation_eq (gp : GetParams) (t : Trigger) :
    apply_name_disambiguation gp t =
      if t.branch_main ≠ some t.code_branch ∨ main_and_test_not_set gp = true then
        { t with target_name :=
            t.target_name ++ jstr " (" ++ t.code_branch ++ jstr ")" }
      else t := by
  unfold apply_name_disambiguation
  by_cases h : t.branch_main = some t.code_branch <;>
    by_cases hm : main_and_test_not_set gp = true <;>
      simp [h, hm]

end AutoRepoWorker

namespace AutoRepoWorker

theorem apply_branch_fields_code_branch (gp : GetParams) (t : Trigger) :
    (apply_branch_fields gp t).code_branch = t.code_branch := by
  unfold apply_branch_fields
  cases hm : paramGet gp litMain <;> cases ht : paramGet gp litTest <;>
    by_cases hmt : main_and_test_not_set gp = true <;> simp [hm, ht, hmt]

theorem apply_name_disambiguation_code_branch (gp : GetParams) (t : Trigger) :
    (apply_name_disambiguation gp t).code_branch = t.code_branch := by
  rw [apply_name_disambiguation_eq]
  split <;> rfl

/-- Claim C6: given a non-empty target list and a payload with a repository
object, `parse_trigger` fails with No Branch Provided exactly when the
payload has no ref and neither the main nor the test query parameter is
present; with a ref the resolved branch is its final slash-segment, and with
no ref and exactly one of main/test present that value is the branch. -/
theorem branch_resolution_rule (u pathname : JSString) (gp : GetParams)
    (payload : Payload) (repo : Repository)
    (h1 : 1 ≤ (get_url_parts pathname).length)
    (h2 : payload.repository = some repo) :
    (parse_trigger u pathname gp payload = .error errNoBranchProvided ↔
      payload.ref = none ∧ paramGet gp litMain = none ∧ paramGet gp litTest = none) ∧
    (∀ r, payload.ref = some r →
      (parse_trigger u pathname gp payload).map Trigger.code_branch =
        .ok (jsLastSlashSegment r)) ∧
    (payload.ref = none → ∀ v, paramGet gp litMain = some v →
      paramGet gp litTest = none →
      (parse_trigger u pathname gp payload).map Trigger.code_branch = .ok v) ∧
    (payload.ref = none → ∀ v, paramGet gp litTest = some v →
      paramGet gp litMain = none →
      (parse_trigger u pathname gp payload).map Trigger.code_branch = .ok v) := by
  rw [parse_trigger_ok_shape u pathname gp payload repo h1 h2]
  refine ⟨?_, ?_, ?_, ?_⟩
  · cases hrb : resolve_branch gp payload with
    | error e =>
      have he := resolve_branch_error_eq gp payload e hrb
      subst he
      simpa using (resolve_branch_error_iff gp payload).mp hrb
    | ok b =>
      simp only []
      constructor
      · intro h
        cases h
      · intro hrhs
        have hcontra := (resolve_branch_error_iff gp payload).mpr hrhs
        rw [hcontra] at hrb
        cases hrb
  · intro r hr
    have hrb : resolve_branch gp payload = .ok (jsLastSlashSegment r) := by
      unfold resolve_branch
      rw [hr]
    rw [hrb]
    simp [Except.map, apply_name_disambiguation_code_branch,
      apply_branch_fields_code_branch, base_trigger]
  · intro hr v hm ht
    have hrb : resolve_branch gp payload = .ok v := by
      unfold resolve_branch
      rw [hr, if_neg (by simp [main_and_test_not_set, paramHas, hm, ht]),
        branch_from_params_main gp v hm]
    rw [hrb]
    simp [Except.map, apply_name_disambiguation_code_branch,
      apply_branch_fields_code_branch, base_trigger]
  · intro hr v ht hm
    have hrb : resolve_branch gp payload = .ok v := by
      unfold resolve_branch
      rw [hr, if_neg (by simp [main_and_test_not_set, paramHas, hm, ht]),
        branch_from_params_test gp v hm ht]
    rw [hrb]
    simp [Except.map, apply_name_disambiguation_code_branch,
      apply_branch_fields_code_branch, base_trigger]

/-- Witness for C6 at a concrete input: a payload with a repository but no
ref and no main/test parameters is rejected with No Branch Provided. -/
theorem branch_resolution_rule_witness :
    parse_trigger (jstr "zbee") (jstr "/trigger/jsp") [] exPayloadNoRef =
      .error errNoBranchProvided :=
  ((branch_resolution_rule (jstr "zbee") (jstr "/trigger/jsp") [] exPayloadNoRef
      exRepository (by decide) (by decide)).1).mpr (by decide)

end AutoRepoWorker

namespace AutoRepoWorker

/-- Claim C7: under the hypotheses of a successful branch resolution, the
built trigger carries branch_main as populated by the source (the main
parameter, or the resolved branch itself when neither main nor test was
supplied), and target_name receives the parenthesized branch suffix exactly
when that branch_main differs from code_branch — the comparison the source
performs twice, never involving branch_test — or when neither main nor test
was supplied. -/
theorem branch_suffix_rule (u pathname : JSString) (gp : GetParams)
    (payload : Payload) (repo : Repository) (cb : JSString)
    (h1 : 1 ≤ (get_url_parts pathname).length)
    (h2 : payload.repository = some repo)
    (h3 : resolve_branch gp payload = .ok cb) :
    (parse_trigger u pathname gp payload).map
        (fun t => (t.target_name, t.branch_main, t.code_branch)) =
      .ok
        (if resolved_branch_main gp cb ≠ some cb ∨ main_and_test_not_set gp = true
         then base_target_name gp repo ++ jstr " (" ++ cb ++ jstr ")"
         else base_target_name gp repo,
         resolved_branch_main gp cb, cb) := by
  rw [parse_trigger_ok_shape u pathname gp payload repo h1 h2, h3]
  simp only []
  rw [apply_branch_fields_eq gp
    (base_trigger u (get_url_parts pathname) gp repo cb) rfl rfl]
  rw [apply_name_disambiguation_eq]
  by_cases hc : resolved_branch_main gp cb = some cb <;>
    by_cases hmt : main_and_test_not_set gp = true <;>
      simp [hc, hmt, Except.map, base_trigger, base_target_name]

end AutoRepoWorker

namespace AutoRepoWorker

/-- Witness for C7 at the two concrete inputs of the claim: with ref
refs/heads/dev and no main/test parameters the name gets the suffix, and
with main set to main and ref refs/heads/main it is unmodified. -/
theorem branch_suffix_rule_witness :
    (parse_trigger (jstr "zbee") (jstr "/trigger/jsp") [] exPayloadDev).map
        (fun t => (t.target_name, t.branch_main, t.code_branch)) =
      .ok (jstr "AutoRepo (dev)", some (jstr "dev"), jstr "dev") ∧
    (parse_trigger (jstr "zbee") (jstr "/trigger/jsp")
        [(jstr "main", jstr "main")] exPayloadMain).map
        (fun t => (t.target_name, t.branch_main, t.code_branch)) =
      .ok (jstr "AutoRepo", some (jstr "main"), jstr "main") := by
  constructor
  · rw [branch_suffix_rule (jstr "zbee") (jstr "/trigger/jsp") [] exPayloadDev
      exRepository (jstr "dev") (by decide) (by decide) (by decide)]
    decide
  · rw [branch_suffix_rule (jstr "zbee") (jstr "/trigger/jsp")
      [(jstr "main", jstr "main")] exPayloadMain
      exRepository (jstr "main") (by decide) (by decide) (by decide)]
    decide

/-- Claim C9: with no ref in the payload and both main and test query
parameters present, the builder does not fail with No Branch Provided, and
the resolved branch is the value of main, because the source assigns test
first and then overwrites with main. -/
theorem both_params_main_wins (u pathname : JSString) (gp : GetParams)
    (payload : Payload) (repo : Repository) (vm vt : JSString)
    (h1 : 1 ≤ (get_url_parts pathname).length)
    (h2 : payload.repository = some repo)
    (href : payload.ref = none)
    (hm : paramGet gp litMain = some vm)
    (ht : paramGet gp litTest = some vt) :
    parse_trigger u pathname gp payload ≠ .error errNoBranchProvided ∧
    (parse_trigger u pathname gp payload).map Trigger.code_branch = .ok vm := by
  have hrb : resolve_branch gp payload = .ok vm := by
    unfold resolve_branch
    rw [href, if_neg (by simp [main_and_test_not_set, paramHas, hm, ht]),
      branch_from_params_main gp vm hm]
  rw [parse_trigger_ok_shape u pathname gp payload repo h1 h2, hrb]
  constructor
  · intro h
    cases h
  · simp [Except.map, apply_name_disambiguation_code_branch,
      apply_branch_fields_code_branch, base_trigger]

/-- Witness for C9 at a concrete input: no ref, main set to m and test set
to t; the resolved branch is m. -/
theorem both_params_main_wins_witness :
    parse_trigger (jstr "zbee") (jstr "/trigger/jsp")
        [(jstr "main", jstr "m"), (jstr "test", jstr "t")] exPayloadNoRef ≠
      .error errNoBranchProvided ∧
    (parse_trigger (jstr "zbee") (jstr "/trigger/jsp")
        [(jstr "main", jstr "m"), (jstr "test", jstr "t")] exPayloadNoRef).map
        Trigger.code_branch = .ok (jstr "m") :=
  both_params_main_wins (jstr "zbee") (jstr "/trigger/jsp")
    [(jstr "main", jstr "m"), (jstr "test", jstr "t")] exPayloadNoRef
    exRepository (jstr "m") (jstr "t")
    (by decide) (by decide) (by decide) (by decide) (by decide)

end AutoRepoWorker

namespace AutoRepoWorker

theorem scan_user_lines_append (base : JSString) (g : List JSString)
    (l1 l2 : List JSString) (acc : List JSString) :
    scan_user_lines base g (l1 ++ l2) acc =
      match scan_user_lines base g l1 acc with
      | .error e => .error e
      | .ok acc2 => scan_user_lines base g l2 acc2 := by
  induction l1 generalizing acc with
  | nil => rfl
  | cons line rest ih =>
    show scan_user_lines base g (line :: (rest ++ l2)) acc = _
    simp only [scan_user_lines]
    by_cases h : jsTrim (stripNewlines ((splitChar ':' (jsToLower line)).headD [])) ≠ base
    · simp only [if_pos h]
      exact ih acc
    · simp only [if_neg h]
      cases hp : (splitChar ':' (jsToLower line))[1]? with
      | none => rfl
      | some p => exact ih _

theorem scan_keys_for_users_eq (base : JSString) (g : List JSString)
    (keys : Keys) (acc : List JSString) :
    scan_keys_for_users base g keys acc =
      scan_user_lines base g (user_lines keys) acc := by
  induction keys generalizing acc with
  | nil => rfl
  | cons kv rest ih =>
    simp only [scan_keys_for_users]
    by_cases h : jsToLower kv.1 = litAllowedReposForUsers
    · rw [if_pos h]
      have hu : user_lines (kv :: rest) = splitChar '\n' kv.2 ++ user_lines rest := by
        simp [user_lines, List.filter_cons, h]
      rw [hu, scan_user_lines_append]
      cases hs : scan_user_lines base g (splitChar '\n' kv.2) acc with
      | error e => rfl
      | ok acc2 => exact ih acc2
    · rw [if_neg h]
      have hu : user_lines (kv :: rest) = user_lines rest := by
        simp [user_lines, List.filter_cons, h]
      rw [hu]
      exact ih acc

theorem resolve_from_cons_match (base : JSString) (g : List JSString)
    (line : JSString) (rest : List JSString) (acc : List JSString)
    (h : line_owner line = base) (p : JSString)
    (hp : (splitChar ':' (jsToLower line))[1]? = some p) :
    resolve_user_lines_from base g (line :: rest) acc =
      resolve_user_lines_from base g rest
        (interpret_user_allowances g (jsTrim p)) := by
  unfold resolve_user_lines_from
  rw [List.filter_cons, if_pos (by simpa using h)]
  cases hf : rest.filter (fun l => line_owner l == base) with
  | nil => simp [List.getLast?, hp]
  | cons l0 ls =>
    rw [List.getLast?_cons_cons]
    cases hgl : (l0 :: ls).getLast? with
    | none => exact absurd (List.getLast?_eq_none_iff.mp hgl) (by simp)
    | some l => rfl

theorem resolve_from_cons_nomatch (base : JSString) (g : List JSString)
    (line : JSString) (rest : List JSString) (acc : List JSString)
    (h : ¬ line_owner line = base) :
    resolve_user_lines_from base g (line :: rest) acc =
      resolve_user_lines_from base g rest acc := by
  unfold resolve_user_lines_from
  rw [List.filter_cons, if_neg (by simpa using h)]

theorem scan_user_lines_resolves (base : JSString) (g : List JSString)
    (lines : List JSString) (acc : List JSString)
    (hwf : ∀ l ∈ lines, line_owner l = base →
      ((splitChar ':' (jsToLower l))[1]?).isSome = true) :
    scan_user_lines base g lines acc =
      .ok (resolve_user_lines_from base g lines acc) := by
  induction lines generalizing acc with
  | nil => rfl
  | cons line rest ih =>
    have hwf' : ∀ l ∈ rest, line_owner l = base →
        ((splitChar ':' (jsToLower l))[1]?).isSome = true :=
      fun l hl => hwf l (List.mem_cons_of_mem _ hl)
    simp only [scan_user_lines]
    by_cases h : line_owner line = base
    · have hsome := hwf line (List.mem_cons_self _ _) h
      obtain ⟨p, hp⟩ := Option.isSome_iff_exists.mp hsome
      rw [if_neg (not_not_intro
        (show jsTrim (stripNewlines ((splitChar ':' (jsToLower line)).headD []))
          = base from h))]
      rw [hp]
      dsimp only
      rw [ih _ hwf', resolve_from_cons_match base g line rest acc h p hp]
    · rw [if_pos (show jsTrim (stripNewlines
        ((splitChar ':' (jsToLower line)).headD [])) ≠ base from h)]
      rw [ih _ hwf', resolve_from_cons_nomatch base g line rest acc h]

theorem repo_allowed_for_key_eq (parts : List JSString) (u : JSString)
    (keys : Keys) (hwf : user_lines_wf keys u) :
    repo_allowed_for_key parts u keys =
      .ok (parts.all (fun p =>
        (resolve_user_lines (base_owner u) (get_allowed_repos keys)
          (user_lines keys)).contains p)) := by
  unfold repo_allowed_for_key
  dsimp only
  rw [scan_keys_for_users_eq,
    show beforeDoubleUnderscore (jsToLower u) = base_owner u from rfl,
    scan_user_lines_resolves (base_owner u) _ _ _ hwf]
  rfl

end AutoRepoWorker

namespace AutoRepoWorker

/-- Claim C4 (amended): for blobs whose matching lines are well-formed
(contain a colon), the per-identity allowed set is the value of the LAST
line of the ALLOWED_REPOS_FOR_USERS blob whose owner (trimmed, lower-cased)
equals the base owner of the identity, interpreted after lower-casing the
whole line: dash is the empty set, star is the full global allow-list, and
anything else an explicit comma-separated list with entries trimmed (and
lower-cased); no matching line resolves to the empty set.  The check
returns whether every target label is in this set, and when the global
check passed while some target is outside the set, the pipeline answers
with the Non-Permissible Repository for Key response. -/
theorem per_user_resolution (u pathname : JSString) (keys : Keys)
    (gp : GetParams) (payload : Payload)
    (hwf : user_lines_wf keys u) :
    repo_allowed_for_key (get_url_parts pathname) u keys =
      .ok ((get_url_parts pathname).all (fun p =>
        (resolve_user_lines (base_owner u) (get_allowed_repos keys)
          (user_lines keys)).contains p)) ∧
    (truthy (repo_allowed (get_url_parts pathname) keys) = true →
      (get_url_parts pathname).all (fun p =>
        (resolve_user_lines (base_owner u) (get_allowed_repos keys)
          (user_lines keys)).contains p) = false →
      handle_request_auth_stage keys u pathname gp payload =
        .ok (.response errNonPermissibleRepositoryForKey)) := by
  refine ⟨repo_allowed_for_key_eq _ _ _ hwf, fun htr hall => ?_⟩
  unfold handle_request_auth_stage
  dsimp only
  rw [htr, repo_allowed_for_key_eq _ _ _ hwf, hall]
  rfl

/-- Witness for C4 at the concrete authorization example of the
specification: global allow-list jsp and zbee, per-user line granting alice
only jsp, identity alice requesting jsp and zbee — the resolved set is the
singleton jsp, the containment check fails, and the pipeline answers with
the Non-Permissible Repository for Key response. -/
theorem per_user_resolution_witness :
    (repo_allowed_for_key (get_url_parts (jstr "/trigger/jsp/zbee"))
        (jstr "alice") aliceKeys =
      .ok ((get_url_parts (jstr "/trigger/jsp/zbee")).all (fun p =>
        (resolve_user_lines (base_owner (jstr "alice"))
          (get_allowed_repos aliceKeys) (user_lines aliceKeys)).contains p)) ∧
    (truthy (repo_allowed (get_url_parts (jstr "/trigger/jsp/zbee")) aliceKeys)
        = true →
      (get_url_parts (jstr "/trigger/jsp/zbee")).all (fun p =>
        (resolve_user_lines (base_owner (jstr "alice"))
          (get_allowed_repos aliceKeys) (user_lines aliceKeys)).contains p)
        = false →
      handle_request_auth_stage aliceKeys (jstr "alice")
          (jstr "/trigger/jsp/zbee") [] exPayloadMain =
        .ok (.response errNonPermissibleRepositoryForKey))) ∧
    handle_request_auth_stage aliceKeys (jstr "alice")
        (jstr "/trigger/jsp/zbee") [] exPayloadMain =
      .ok (.response errNonPermissibleRepositoryForKey) := by
  have h := per_user_resolution (jstr "alice") (jstr "/trigger/jsp/zbee")
    aliceKeys [] exPayloadMain (by decide)
  exact ⟨h, h.2 (by decide) (by decide)⟩

/-- Claim C10 (amended): for a credential set whose global allow-list is
non-empty and whose per-user blob lines matching the identity are
well-formed (contain a colon), an empty target label list passes both the
global and the per-identity all-of checks vacuously, and the request is
rejected only afterwards, by the trigger builder, with the Non-Permissible
Trigger response — never with an authorization error. -/
theorem empty_targets_vacuous (keys : Keys) (u pathname : JSString)
    (gp : GetParams) (payload : Payload)
    (hne : get_allowed_repos keys ≠ [])
    (hempty : get_url_parts pathname = [])
    (hwf : user_lines_wf keys u) :
    repo_allowed (get_url_parts pathname) keys = .bool true ∧
    repo_allowed_for_key (get_url_parts pathname) u keys = .ok true ∧
    handle_request_auth_stage keys u pathname gp payload =
      .ok (.response errNonPermissibleTrigger) := by
  have hra : repo_allowed (get_url_parts pathname) keys = .bool true := by
    unfold repo_allowed
    dsimp only
    rw [if_neg (by simpa [List.length_eq_zero] using hne), hempty]
    rfl
  have hrafk : repo_allowed_for_key (get_url_parts pathname) u keys = .ok true := by
    rw [repo_allowed_for_key_eq _ _ _ hwf, hempty]
    rfl
  have hpt : parse_trigger u pathname gp payload =
      .error errNonPermissibleTrigger := by
    unfold parse_trigger
    dsimp only
    rw [hempty]
    rfl
  refine ⟨hra, hrafk, ?_⟩
  unfold handle_request_auth_stage
  dsimp only
  rw [hra, hrafk, hpt]
  rfl

/-- Witness for C10 (amended) at a concrete input: non-empty global
allow-list, a per-user line for alice only, identity zbee (no matching
line, trivially well-formed), and the path /trigger/ with no labels. -/
theorem empty_targets_vacuous_witness :
    repo_allowed (get_url_parts (jstr "/trigger/")) aliceKeys = .bool true ∧
    repo_allowed_for_key (get_url_parts (jstr "/trigger/")) (jstr "zbee")
      aliceKeys = .ok true ∧
    handle_request_auth_stage aliceKeys (jstr "zbee") (jstr "/trigger/") []
      exPayloadMain = .ok (.response errNonPermissibleTrigger) :=
  empty_targets_vacuous aliceKeys (jstr "zbee") (jstr "/trigger/") []
    exPayloadMain (by decide) (by decide) (by decide)

end AutoRepoWorker

namespace AutoRepoWorker

theorem parse_trigger_error_options (u pathname : JSString) (gp : GetParams)
    (payload : Payload) (e : String)
    (h : parse_trigger u pathname gp payload = .error e) :
    e = errNonPermissibleTrigger ∨ e = errUnexpectedRequestBody ∨
      e = errNoBranchProvided := by
  unfold parse_trigger at h
  dsimp only at h
  split at h
  · exact Or.inl (Except.error.inj h).symm
  · split at h
    · exact Or.inr (Or.inl (Except.error.inj h).symm)
    · split at h
      · next e2 heq =>
        exact Or.inr (Or.inr ((Except.error.inj h).symm.trans
          (resolve_branch_error_eq gp payload e2 heq)))
      · cases h

/-- Claim C3: with a non-empty global allow-list, the pipeline answers with
the Non-Permissible Repository response exactly when at least one label of
the target list is missing from the global allow-list (all-of semantics); a
target list whose every label is in the list passes the global check. -/
theorem global_check_iff (keys : Keys) (u pathname : JSString)
    (gp : GetParams) (payload : Payload)
    (hne : get_allowed_repos keys ≠ []) :
    handle_request_auth_stage keys u pathname gp payload =
        .ok (.response errNonPermissibleRepository) ↔
      ∃ part ∈ get_url_parts pathname, part ∉ get_allowed_repos keys := by
  have hra : repo_allowed (get_url_parts pathname) keys =
      .bool ((get_url_parts pathname).all
        (fun part => (get_allowed_repos keys).contains part)) := by
    unfold repo_allowed
    dsimp only
    rw [if_neg (by simpa [List.length_eq_zero] using hne)]
  unfold handle_request_auth_stage
  dsimp only
  rw [hra]
  cases hall : (get_url_parts pathname).all
      (fun part => (get_allowed_repos keys).contains part) with
  | false =>
    simp only [truthy, Bool.not_false, if_true]
    constructor
    · intro _
      obtain ⟨part, hmem, hp⟩ := List.all_eq_false.mp hall
      refine ⟨part, hmem, fun hm => hp ?_⟩
      simpa [List.contains, List.elem_iff] using hm
    · intro _
      trivial
  | true =>
    simp only [truthy, Bool.not_true, Bool.false_eq_true, if_false]
    constructor
    · intro h
      exfalso
      cases hrk : repo_allowed_for_key (get_url_parts pathname) u keys with
      | error e2 =>
        rw [hrk] at h
        cases h
      | ok b =>
        rw [hrk] at h
        cases b with
        | false =>
          simp only [Bool.not_false, if_true] at h
          exact absurd (PipelineResult.response.inj (Except.ok.inj h)) (by decide)
        | true =>
          simp only [Bool.not_true, Bool.false_eq_true, if_false] at h
          cases hpt : parse_trigger u pathname gp payload with
          | error e2 =>
            rw [hpt] at h
            have he2 := PipelineResult.response.inj (Except.ok.inj h)
            rcases parse_trigger_error_options u pathname gp payload e2 hpt with
              h1 | h1 | h1 <;> rw [h1] at he2 <;> exact absurd he2 (by decide)
          | ok t =>
            rw [hpt] at h
            cases Except.ok.inj h
    · rintro ⟨part, hmem, hnot⟩
      exact absurd (by simpa [List.contains, List.elem_iff] using
        List.all_eq_true.mp hall part hmem) hnot

/-- Witness for C3 at a concrete input: global allow-list holding only jsp,
and the target list jsp, evil — the pipeline rejects with Non-Permissible
Repository, matched by the disallowed label evil. -/
theorem global_check_iff_witness :
    get_allowed_repos [(jstr "Allowed_repos", jstr "jsp")] ≠ [] ∧
    (handle_request_auth_stage [(jstr "Allowed_repos", jstr "jsp")]
        (jstr "zbee") (jstr "/trigger/jsp/evil") [] exPayloadMain =
        .ok (.response errNonPermissibleRepository) ↔
      ∃ part ∈ get_url_parts (jstr "/trigger/jsp/evil"),
        part ∉ get_allowed_repos [(jstr "Allowed_repos", jstr "jsp")]) :=
  ⟨by decide,
   global_check_iff [(jstr "Allowed_repos", jstr "jsp")] (jstr "zbee")
     (jstr "/trigger/jsp/evil") [] exPayloadMain (by decide)⟩

end AutoRepoWorker

namespace AutoRepoWorker

/-- Claim C8 (amended): for every non-empty secret and every header that
contains at least one equals sign, the signature verifier returns a boolean
without throwing — the HMAC comparison applied to the decoded bytes of the
part between the first and second equals sign, where undecodable hex slices
become 0-bytes rather than throwing, so malformed hex leads to an HMAC
mismatch (false).  A header with no equals sign throws a TypeError and an
empty secret throws a DataError, so the unamended never-throws claim fails. -/
theorem verify_signature_total (hmacVerify : JSString → JSString → List Nat → Bool)
    (secret header payload : JSString)
    (hsec : secret ≠ [])
    (heq : 2 ≤ (splitChar '=' header).length) :
    verifySignature hmacVerify secret header payload =
      .ok (hmacVerify secret payload
        (hexToBytes (((splitChar '=' header)[1]?).getD []))) := by
  unfold verifySignature
  dsimp only
  rw [if_neg (by simpa [List.length_eq_zero] using hsec)]
  rw [List.getElem?_eq_getElem (by omega : 1 < (splitChar '=' header).length)]
  rfl

/-- Witness for C8 (amended) at a concrete input: secret sek, header
sha256=ff, both hypotheses hold, and the verifier returns the boolean
produced by the HMAC comparison on the decoded byte 255. -/
theorem verify_signature_total_witness :
    verifySignature (fun _ _ b => b == [255]) (jstr "sek") (jstr "sha256=ff")
      (jstr "x") = .ok true := by
  rw [verify_signature_total (fun _ _ b => b == [255]) (jstr "sek")
    (jstr "sha256=ff") (jstr "x") (by decide) (by decide)]
  decide

end AutoRepoWorker
